import Mathlib

/-!
Shallow embedding of the token-lifecycle and quota-retrieval engine of
`usage-google-opencode` (TypeScript sources under `src/`), together with
theorems settling the specification claims.

Conventions of the embedding:
* Machine numbers are `Nat`/`Int`; JSON fractions are `ℚ`; `Math.floor`
  is `Int.floor`.
* JavaScript `undefined`/optional fields are `Option`; JS truthiness of a
  string is `≠ ""`, of a number is `≠ 0`.
* Network transports are oracles: each outbound call consumes an
  `HttpEvent` carrying the wall-clock duration of the call and its
  outcome (an HTTP response with an already-parsed optional JSON body,
  or a network failure).  `fetchWithTimeout` (quota.ts / project.ts)
  turns an event whose duration reaches the timeout budget into the
  distinguishable timeout error; `postToken` (token.ts) has no timeout
  wrapper and uses the outcome whatever its duration.
* Fallible code returns `Except`; instrumentation (outbound-call counts,
  delay counts) is threaded explicitly.
-/

namespace UsageGoogle

/-- Does the character list start with `pat`? -/
def startsWithChars : List Char → List Char → Bool
  | _, [] => true
  | [], _ :: _ => false
  | c :: cs, p :: ps => c = p && startsWithChars cs ps

/-- Does `pat` occur as a contiguous run of the character list? -/
def hasInfixChars (pat : List Char) : List Char → Bool
  | [] => pat.isEmpty
  | c :: cs => startsWithChars (c :: cs) pat || hasInfixChars pat cs

/-- Case-sensitive substring test: `containsSub s pat` is true iff `pat`
occurs in `s` (models JS `String.prototype.includes`). -/
def containsSub (s pat : String) : Bool :=
  hasInfixChars pat.data s.data

/-- Case-insensitive substring test (models `toLowerCase()` before an
`includes`, and case-insensitive regex matching). -/
def containsSubCI (s pat : String) : Bool :=
  hasInfixChars (pat.data.map Char.toLower) (s.data.map Char.toLower)

/-- JS `String.prototype.trim` on the model of strings as char lists. -/
def isJsSpace (c : Char) : Bool :=
  c = ' ' || c = '\t' || c = '\n' || c = '\r' || c = '\x0b' || c = '\x0c'

def trimChars (l : List Char) : List Char :=
  ((l.dropWhile isJsSpace).reverse.dropWhile isJsSpace).reverse

def jsTrim (s : String) : String :=
  ⟨trimChars s.data⟩

/-- `MODEL_FILTER_PATTERN = /gemini|claude|image|imagen/i` from quota.ts:
case-insensitive test for any of the four markers. -/
def modelFilterTest (s : String) : Bool :=
  containsSubCI s "gemini" || containsSubCI s "claude" ||
  containsSubCI s "image" || containsSubCI s "imagen"

/-- The two quota identities (`QuotaIdentity` in oauth/constants.ts). -/
inductive QuotaIdentity
  | antigravity
  | geminiCli
deriving DecidableEq, Repr

/-! ## Quota response shapes and parsers (google/quota.ts) -/

/-- `quotaInfo` object of a `fetchAvailableModels` model entry. -/
structure QuotaInfo where
  remainingFraction : Option ℚ
  resetTime : Option String
deriving DecidableEq, Repr

/-- One model entry of a `FetchAvailableModelsResponse`. -/
structure ModelData where
  quotaInfo : Option QuotaInfo
deriving DecidableEq, Repr

/-- One bucket of a `RetrieveUserQuotaResponse`. -/
structure Bucket where
  remainingAmount : Option String
  remainingFraction : Option ℚ
  resetTime : Option String
  tokenType : Option String
  modelId : Option String
deriving DecidableEq, Repr

/-- Normalized per-model quota (`ModelQuota` in quota.ts). -/
structure ModelQuota where
  model : String
  remainingPercent : ℤ
  resetTime : String
deriving DecidableEq, Repr

/-- `parseQuotaResponse` (quota.ts): walks the entries of the
`models` record (as an association list, in `Object.entries` order),
keeps names matching the model filter, defaults a missing
`quotaInfo`/`remainingFraction` to `0` and a missing `resetTime` to `""`,
and computes `remainingPercent = Math.floor(remainingFraction * 100)`. -/
def parseQuotaResponse : List (String × ModelData) → List ModelQuota
  | [] => []
  | (modelName, modelData) :: rest =>
    if modelFilterTest modelName then
      let quotaInfo := modelData.quotaInfo
      let remainingFraction := (quotaInfo.bind (·.remainingFraction)).getD 0
      let resetTime := (quotaInfo.bind (·.resetTime)).getD ""
      { model := modelName
        remainingPercent := ⌊remainingFraction * 100⌋
        resetTime := resetTime } :: parseQuotaResponse rest
    else
      parseQuotaResponse rest

/-- `parseUserQuotaResponse` (quota.ts): walks the buckets, skips a
bucket whose `modelId` is absent or empty (JS `!modelId`) or filtered
out, defaults a missing fraction to `0` and a missing `resetTime` to
`""`. -/
def parseUserQuotaResponse : List Bucket → List ModelQuota
  | [] => []
  | bucket :: rest =>
    match bucket.modelId with
    | none => parseUserQuotaResponse rest
    | some modelId =>
      if modelId = "" || !modelFilterTest modelId then
        parseUserQuotaResponse rest
      else
        { model := modelId
          remainingPercent := ⌊(bucket.remainingFraction.getD 0) * 100⌋
          resetTime := bucket.resetTime.getD "" } :: parseUserQuotaResponse rest

/-! ## HTTP transport model -/

/-- Outcome of one outbound HTTP call: a response (status plus the
JSON body as already decoded by `readJsonSafe`, `none` for an empty or
unparseable body) or a network-level failure. -/
inductive HttpOutcome (β : Type) where
  | resp (status : Nat) (body : Option β)
  | netErr (msg : String)
deriving DecidableEq, Repr

/-- One outbound call as answered by the transport: the wall-clock
duration of the call in milliseconds and its outcome. -/
structure HttpEvent (β : Type) where
  duration : Nat
  outcome : HttpOutcome β
deriving DecidableEq, Repr

/-- `Response.ok`: status in the 2xx range. -/
def resOk (status : Nat) : Bool :=
  200 ≤ status && status < 300

/-- `fetchWithTimeout` (quota.ts / project.ts): the `AbortController`
aborts the request once `timeoutMs` elapses, so an event whose duration
reaches the budget surfaces as the distinguishable timeout error
message; otherwise the event's own outcome is used. -/
def fetchWithTimeout {β : Type} (ev : HttpEvent β) (timeoutMs : Nat) :
    Except String (Nat × Option β) :=
  if ev.duration ≥ timeoutMs then
    .error s!"Network request timed out after {timeoutMs}ms"
  else
    match ev.outcome with
    | .resp status body => .ok (status, body)
    | .netErr msg => .error msg

/-! ## Quota fetch with retry (google/quota.ts) -/

/-- `QuotaError` (quota.ts). -/
structure QuotaError where
  message : String
  status : Nat
  endpoint : String
deriving DecidableEq, Repr

/-- Combined JSON body of a quota response: a JS object may carry a
`models` record (fetchAvailableModels shape) and/or a `buckets` array
(retrieveUserQuota shape). -/
structure QJson where
  models : Option (List (String × ModelData))
  buckets : Option (List Bucket)
deriving DecidableEq, Repr

/-- Quota-endpoint timeout: `FETCH_TIMEOUT_MS = 15000` in quota.ts. -/
def QUOTA_FETCH_TIMEOUT_MS : Nat := 15000

/-- `MAX_RETRIES = 3` in quota.ts. -/
def MAX_RETRIES : Nat := 3

/-- `RETRY_DELAY_MS = 1000` in quota.ts. -/
def RETRY_DELAY_MS : Nat := 1000

/-- quota.ts lines 344-362: decode the body of a 2xx quota response
(`readJsonSafe` result) into `ModelQuota[]` for the given identity. -/
def parseOkBody (isGeminiCli : Bool) (body : Option QJson) : List ModelQuota :=
  match body with
  | none => []
  | some json =>
    if isGeminiCli then
      match json.buckets with
      | none => []
      | some buckets => parseUserQuotaResponse buckets
    else
      match json.models with
      | none => []
      | some models => parseQuotaResponse models

/-- Instrumented outcome of `fetchQuotaWithRetry`: the result, the
number of outbound calls made, and the number of `delay(RETRY_DELAY_MS)`
sleeps performed. -/
structure RetryOutcome where
  result : Except QuotaError (List ModelQuota)
  calls : Nat
  delays : Nat
deriving Repr

/-- Loop body of `fetchQuotaWithRetry` (quota.ts lines 314-377),
recursing on the number of remaining attempts; `transport n` answers the
`n`-th outbound call.  `remaining = MAX_RETRIES - attempt + 1`, so the
code's `attempt < MAX_RETRIES` retry guard is `remaining ≥ 2` here,
i.e. the recursive calls happen while `remaining - 1 ≥ 1`. -/
def fetchQuotaGo (transport : Nat → HttpEvent QJson) (endpoint : String)
    (isGeminiCli : Bool) :
    Nat → Nat → Nat → Option String → RetryOutcome
  | 0, calls, delays, lastError =>
    let m := lastError.getD "All quota retries failed"
    ⟨.error ⟨s!"Network error: {m}", 0, endpoint⟩, calls, delays⟩
  | remaining + 1, calls, delays, lastError =>
    match fetchWithTimeout (transport calls) QUOTA_FETCH_TIMEOUT_MS with
    | .ok (status, body) =>
      if resOk status then
        ⟨.ok (parseOkBody isGeminiCli body), calls + 1, delays⟩
      else if status = 403 then
        ⟨.error ⟨"Forbidden: HTTP 403", 403, endpoint⟩, calls + 1, delays⟩
      else if remaining ≥ 1 then
        fetchQuotaGo transport endpoint isGeminiCli remaining
          (calls + 1) (delays + 1) lastError
      else
        ⟨.error ⟨s!"HTTP {status}", status, endpoint⟩, calls + 1, delays⟩
    | .error msg =>
      if remaining ≥ 1 then
        fetchQuotaGo transport endpoint isGeminiCli remaining
          (calls + 1) (delays + 1) (some msg)
      else
        ⟨.error ⟨s!"Network error: {msg}", 0, endpoint⟩, calls + 1, delays⟩

/-- `fetchQuotaWithRetry` (quota.ts): up to `MAX_RETRIES` attempts. -/
def fetchQuotaWithRetry (transport : Nat → HttpEvent QJson)
    (endpoint : String) (isGeminiCli : Bool) : RetryOutcome :=
  fetchQuotaGo transport endpoint isGeminiCli MAX_RETRIES 0 0 none

/-- Endpoint constants from quota.ts. -/
def FETCH_AVAILABLE_MODELS_ENDPOINT : String :=
  "https://cloudcode-pa.googleapis.com/v1internal:fetchAvailableModels"

def RETRIEVE_USER_QUOTA_ENDPOINT : String :=
  "https://cloudcode-pa.googleapis.com/v1internal:retrieveUserQuota"

/-- `fetchQuota` (quota.ts): input validation, then dispatch to the
identity's single endpoint with the retry loop. -/
def fetchQuota (accessToken projectId : String) (identity : QuotaIdentity)
    (transport : Nat → HttpEvent QJson) : RetryOutcome :=
  if jsTrim accessToken = "" then
    ⟨.error ⟨"Access token is required and cannot be empty", 0, ""⟩, 0, 0⟩
  else if jsTrim projectId = "" then
    ⟨.error ⟨"Project ID is required and cannot be empty", 0, ""⟩, 0, 0⟩
  else
    match identity with
    | .geminiCli => fetchQuotaWithRetry transport RETRIEVE_USER_QUOTA_ENDPOINT true
    | .antigravity => fetchQuotaWithRetry transport FETCH_AVAILABLE_MODELS_ENDPOINT false

/-! ## Token exchange (oauth/token.ts) -/

def GOOGLE_OAUTH_TOKEN_ENDPOINT : String := "https://oauth2.googleapis.com/token"

/-- `OAuthTokenError` (token.ts). -/
structure OAuthTokenError where
  message : String
  status : Nat
  endpoint : String
  error : Option String
  errorDescription : Option String
deriving DecidableEq, Repr

/-- Parsed JSON body of a token-endpoint response.  `none` at the
`Option TokenJson` level stands for a body with none of these fields
(empty body, or the `{ raw: text }` object `readJsonSafe` builds from
unparseable text). -/
structure TokenJson where
  access_token : Option String
  expires_in : Option Int
  error : Option String
  error_description : Option String
deriving DecidableEq, Repr

/-- A failure escaping the token layer: a typed `OAuthTokenError`, or a
plain network/transport rejection. -/
inductive TokenFailure where
  | oauth (e : OAuthTokenError)
  | network (msg : String)
deriving DecidableEq, Repr

/-- `postToken` (token.ts): a single POST to the token endpoint with no
timeout wrapper — the outcome is used whatever the call's duration.
Non-2xx responses become an `OAuthTokenError` carrying the body's
`error`/`error_description`. -/
def postToken (ev : HttpEvent TokenJson) : Except TokenFailure (Option TokenJson) :=
  match ev.outcome with
  | .netErr msg => .error (.network msg)
  | .resp status body =>
    if resOk status then
      .ok body
    else
      .error (.oauth
        { message := "OAuth token request failed"
          status := status
          endpoint := GOOGLE_OAUTH_TOKEN_ENDPOINT
          error := body.bind (·.error)
          errorDescription := body.bind (·.error_description) })

structure TokenPair where
  accessToken : String
  expiresAt : Int
deriving DecidableEq, Repr

/-- Error thrown when a 2xx token response has no usable `access_token`
(JS truthiness: absent or empty string). -/
def missingAccessTokenError : TokenFailure :=
  .oauth
    { message := "OAuth token response missing access_token"
      status := 200
      endpoint := GOOGLE_OAUTH_TOKEN_ENDPOINT
      error := none
      errorDescription := none }

/-- `refreshAccessToken` (token.ts): one `grant_type=refresh_token`
exchange; on success the expiry is `now + expires_in` with a 3600s
default. -/
def refreshAccessToken (ev : HttpEvent TokenJson) (nowSec : Int) :
    Except TokenFailure TokenPair :=
  match postToken ev with
  | .error e => .error e
  | .ok json =>
    match json.bind (·.access_token) with
    | none => .error missingAccessTokenError
    | some tok =>
      if tok = "" then
        .error missingAccessTokenError
      else
        .ok ⟨tok, nowSec + (json.bind (·.expires_in)).getD 3600⟩

/-! ## Project resolution (google/project.ts) -/

/-- `ProjectError` (project.ts). -/
structure ProjectError where
  message : String
  status : Nat
  endpoint : String
deriving DecidableEq, Repr

/-- `cloudaicompanionProject` can be a bare string or an object with an
`id` field. -/
inductive CapValue where
  | str (s : String)
  | obj (id : Option String)
deriving DecidableEq, Repr

/-- Parsed JSON body of a `loadCodeAssist` response. -/
structure LCAJson where
  cloudaicompanionProject : Option CapValue
  projectId : Option String
deriving DecidableEq, Repr

/-- Project-discovery timeout: `FETCH_TIMEOUT_MS = 10000` in project.ts. -/
def PROJECT_FETCH_TIMEOUT_MS : Nat := 10000

/-- `DEFAULT_PROJECT_ID` (project.ts). -/
def DEFAULT_PROJECT_ID : String := "rising-fact-p41fc"

/-- `LOAD_CODE_ASSIST_ENDPOINTS` (project.ts), tried in order. -/
def LOAD_CODE_ASSIST_ENDPOINTS : List String :=
  [ "https://cloudcode-pa.googleapis.com/v1internal:loadCodeAssist"
  , "https://daily-cloudcode-pa.sandbox.googleapis.com/v1internal:loadCodeAssist"
  , "https://autopush-cloudcode-pa.sandbox.googleapis.com/v1internal:loadCodeAssist" ]

/-- The `cloudaicompanionProject` leg of `extractProjectId`, with JS
truthiness: an empty string (bare or in `id`) yields nothing. -/
def capExtract : Option CapValue → Option String
  | some (.str s) => if s = "" then none else some s
  | some (.obj (some i)) => if i = "" then none else some i
  | some (.obj none) => none
  | none => none

/-- `extractProjectId` (project.ts): direct `projectId` field first
(truthy string), then `cloudaicompanionProject`. -/
def extractProjectId : Option LCAJson → Option String
  | none => none
  | some json =>
    match json.projectId with
    | some p => if p = "" then capExtract json.cloudaicompanionProject else some p
    | none => capExtract json.cloudaicompanionProject

/-- Instrumented outcome of `ensureProjectId`: result plus the number of
outbound discovery calls made. -/
structure ProjectOutcome where
  result : Except ProjectError String
  calls : Nat
deriving Repr

/-- The endpoint loop of `ensureProjectId` (project.ts lines 172-199):
any failure (timeout, network error, non-2xx, or no extractable id)
moves on to the next endpoint; exhausting them yields the fallback. -/
def ensureProjectIdLoop (events : Nat → HttpEvent LCAJson) :
    List String → Nat → ProjectOutcome
  | [], calls => ⟨.ok DEFAULT_PROJECT_ID, calls⟩
  | _endpoint :: rest, calls =>
    match fetchWithTimeout (events calls) PROJECT_FETCH_TIMEOUT_MS with
    | .error _ => ensureProjectIdLoop events rest (calls + 1)
    | .ok (status, body) =>
      if resOk status then
        match extractProjectId body with
        | some pid => ⟨.ok pid, calls + 1⟩
        | none => ensureProjectIdLoop events rest (calls + 1)
      else
        ensureProjectIdLoop events rest (calls + 1)

/-- `ensureProjectId` (project.ts): validates the access token, returns
a known project id trimmed (JS truthiness: an empty-string id counts as
absent), otherwise discovers via the endpoint loop. -/
def ensureProjectId (accessToken : String) (projectId : Option String)
    (events : Nat → HttpEvent LCAJson) : ProjectOutcome :=
  if jsTrim accessToken = "" then
    ⟨.error ⟨"Access token is required and cannot be empty", 0, ""⟩, 0⟩
  else
    match projectId with
    | some p =>
      if p = "" then
        ensureProjectIdLoop events LOAD_CODE_ASSIST_ENDPOINTS 0
      else if jsTrim p = "" then
        ⟨.error ⟨"Project ID cannot be empty", 0, ""⟩, 0⟩
      else
        ⟨.ok (jsTrim p), 0⟩
    | none => ensureProjectIdLoop events LOAD_CODE_ASSIST_ENDPOINTS 0

/-! ## Status command (commands/status.ts) and store model (storage.ts) -/

/-- `UsageOpencodeIdentity` as used by status.ts: stored refresh token,
optional identity-specific project id, and the optional cached access
token with its expiry (unix seconds). -/
structure IdentityData where
  refreshToken : String
  projectId : Option String
  cachedAccessToken : Option String
  cachedExpiresAt : Option Int
deriving DecidableEq, Repr

/-- `UsageOpencodeAccount` (storage.ts). -/
structure Account where
  email : String
  projectId : Option String
  antigravity : Option IdentityData
  geminiCli : Option IdentityData
  addedAt : Int
  updatedAt : Int
deriving DecidableEq, Repr

/-- `UsageOpencodeStore` (storage.ts); `version` is the constant `1` in
the source. -/
structure Store where
  version : Nat
  accounts : List Account
deriving DecidableEq, Repr

/-- `TOKEN_CACHE_MARGIN_S = 300` in status.ts. -/
def TOKEN_CACHE_MARGIN_S : Int := 300

/-- A failure caught by `fetchIdentityQuota`'s single catch block: any
of the three layers' typed errors, or a plain network rejection from
the token layer. -/
inductive PipeError where
  | oauthErr (e : OAuthTokenError)
  | projectErr (e : ProjectError)
  | quotaErr (e : QuotaError)
  | plainErr (msg : String)
deriving DecidableEq, Repr

def errMessage : PipeError → String
  | .oauthErr e => e.message
  | .projectErr e => e.message
  | .quotaErr e => e.message
  | .plainErr m => m

/-- `isInvalidGrantError` (status.ts): `error === "invalid_grant"`, or
`errorDescription` containing the phrase (only `OAuthTokenError` has
those fields), or the message containing the phrase. -/
def isInvalidGrantError (err : PipeError) : Bool :=
  (match err with
   | .oauthErr e =>
     e.error == some "invalid_grant" ||
     (match e.errorDescription with
      | some d => containsSub d "invalid_grant"
      | none => false)
   | _ => false) ||
  containsSub (errMessage err) "invalid_grant"

/-- `isForbiddenError` (status.ts): `status === 403`, or the message
containing `"403"`, or the lower-cased message containing
`"forbidden"`. -/
def isForbiddenError (err : PipeError) : Bool :=
  (match err with
   | .oauthErr e => e.status == 403
   | .projectErr e => e.status == 403
   | .quotaErr e => e.status == 403
   | .plainErr _ => false) ||
  containsSub (errMessage err) "403" ||
  containsSubCI (errMessage err) "forbidden"

/-- `isCachedTokenValid` (status.ts): both cached fields truthy and the
expiry beyond `now + TOKEN_CACHE_MARGIN_S`. -/
def isCachedTokenValid (d : IdentityData) (nowSec : Int) : Bool :=
  match d.cachedAccessToken, d.cachedExpiresAt with
  | some t, some e =>
    !(t = "") && !(e = 0) && decide (e > nowSec + TOKEN_CACHE_MARGIN_S)
  | _, _ => false

/-- Per-task environment: the transports answering this task's token,
project-discovery and quota calls, plus the clock readings the task
takes (`Math.floor(Date.now()/1000)` and `Date.now()`). -/
structure TaskEnv where
  tokenEvent : HttpEvent TokenJson
  projectEvents : Nat → HttpEvent LCAJson
  quotaTransport : Nat → HttpEvent QJson
  nowSec : Int
  fetchedAt : Int

/-- `AccountQuotaReport` (status.ts). -/
structure AccountQuotaReport where
  email : String
  identity : QuotaIdentity
  projectId : String
  models : List ModelQuota
  fetchedAt : Int
deriving DecidableEq, Repr

/-- `IdentityError` (status.ts). -/
structure IdentityError where
  email : String
  identity : QuotaIdentity
  error : String
  needsRelogin : Bool
  isForbidden : Bool
deriving DecidableEq, Repr

/-- Fresh token cache for write-back (the `tokenCache` field of
`IdentityQuotaResult`). -/
structure TokenCache where
  accessToken : String
  expiresAt : Int
deriving DecidableEq, Repr

/-- `IdentityQuotaResult` (status.ts). -/
structure IdentityQuotaResult where
  report : Option AccountQuotaReport
  error : Option IdentityError
  email : String
  identity : QuotaIdentity
  tokenCache : Option TokenCache
deriving DecidableEq, Repr

/-- Instrumented run of one task: its result, the number of
token-endpoint calls it made, and the access token it passed to the
project/quota stages (`none` when it failed before obtaining one). -/
structure TaskRun where
  result : IdentityQuotaResult
  tokenCalls : Nat
  accessTokenUsed : Option String
deriving Repr

/-- The catch block of `fetchIdentityQuota` (status.ts lines 195-209):
classify the caught error and return an error result (note: no
`tokenCache`, so a refresh followed by a downstream failure is not
persisted). -/
def catchResult (email : String) (identity : QuotaIdentity)
    (err : PipeError) : IdentityQuotaResult :=
  { report := none
    error := some
      { email := email
        identity := identity
        error := errMessage err
        needsRelogin := isInvalidGrantError err
        isForbidden := isForbiddenError err }
    email := email
    identity := identity
    tokenCache := none }

/-- A token-layer failure as seen by the catch block. -/
def liftTokenFailure : TokenFailure → PipeError
  | .oauth e => .oauthErr e
  | .network m => .plainErr m

/-- The project/quota stages of `fetchIdentityQuota` (status.ts lines
167-194), after an access token has been obtained. -/
def fetchIdentityQuotaRest (account : Account) (identity : QuotaIdentity)
    (d : IdentityData) (env : TaskEnv) (accessToken : String)
    (tokenCache : Option TokenCache) (tokenCalls : Nat) : TaskRun :=
  let storedProjectId :=
    match d.projectId with
    | some p => some p
    | none => account.projectId
  match (ensureProjectId accessToken storedProjectId env.projectEvents).result with
  | .error e => ⟨catchResult account.email identity (.projectErr e), tokenCalls, some accessToken⟩
  | .ok projectId =>
    match (fetchQuota accessToken projectId identity env.quotaTransport).result with
    | .error e => ⟨catchResult account.email identity (.quotaErr e), tokenCalls, some accessToken⟩
    | .ok models =>
      ⟨{ report := some
           { email := account.email
             identity := identity
             projectId := projectId
             models := models
             fetchedAt := env.fetchedAt }
         error := none
         email := account.email
         identity := identity
         tokenCache := tokenCache }, tokenCalls, some accessToken⟩

/-- The refresh branch of `fetchIdentityQuota` (cache absent or stale):
exactly one refresh exchange, whose fresh token is remembered for
persistence. -/
def fetchIdentityQuotaRefresh (account : Account) (identity : QuotaIdentity)
    (d : IdentityData) (env : TaskEnv) : TaskRun :=
  match refreshAccessToken env.tokenEvent env.nowSec with
  | .error e => ⟨catchResult account.email identity (liftTokenFailure e), 1, none⟩
  | .ok pair =>
    fetchIdentityQuotaRest account identity d env pair.accessToken
      (some ⟨pair.accessToken, pair.expiresAt⟩) 1

/-- `fetchIdentityQuota` (status.ts): reuse a valid cached access token
(no token-endpoint call, nothing to persist), else refresh.  The guard
is `isCachedTokenValid` inlined on the matched cached fields. -/
def fetchIdentityQuota (account : Account) (identity : QuotaIdentity)
    (d : IdentityData) (env : TaskEnv) : TaskRun :=
  match d.cachedAccessToken, d.cachedExpiresAt with
  | some t, some e =>
    if !(t = "") && !(e = 0) && decide (e > env.nowSec + TOKEN_CACHE_MARGIN_S) then
      fetchIdentityQuotaRest account identity d env t none 0
    else
      fetchIdentityQuotaRefresh account identity d env
  | _, _ => fetchIdentityQuotaRefresh account identity d env

/-! ## runStatus: fan-out, merge, single best-effort write -/

def getIdentityData (a : Account) : QuotaIdentity → Option IdentityData
  | .antigravity => a.antigravity
  | .geminiCli => a.geminiCli

def setIdentityData (a : Account) : QuotaIdentity → IdentityData → Account
  | .antigravity, d => { a with antigravity := some d }
  | .geminiCli, d => { a with geminiCli := some d }

/-- Spread update `{ ...existing, cachedAccessToken, cachedExpiresAt }`
(status.ts lines 273-277). -/
def applyCache (d : IdentityData) (tc : TokenCache) : IdentityData :=
  { d with
    cachedAccessToken := some tc.accessToken
    cachedExpiresAt := some tc.expiresAt }

/-- `findIndex` by email followed by a copy-on-write update of that
account's identity slot (status.ts lines 264-280): the first account
with the result's email gets the fresh cache fields, provided it still
has that identity; otherwise the list is unchanged. -/
def updateFirstAccount (email : String) (identity : QuotaIdentity)
    (tc : TokenCache) : List Account → List Account
  | [] => []
  | a :: rest =>
    if a.email = email then
      match getIdentityData a identity with
      | some existing => setIdentityData a identity (applyCache existing tc) :: rest
      | none => a :: rest
    else
      a :: updateFirstAccount email identity tc rest

/-- One iteration of the result-collection loop's persistence arm:
results without a `tokenCache` leave the store untouched. -/
def applyResult (s : Store) (r : IdentityQuotaResult) : Store :=
  match r.tokenCache with
  | none => s
  | some tc => { s with accounts := updateFirstAccount r.email r.identity tc s.accounts }

/-- The fan-out of status.ts lines 233-249: per account, an antigravity
task then a gemini-cli task, each only when the identity is present
with a truthy refresh token and passes the identity filter. -/
def taskList (identityFilter : Option QuotaIdentity) :
    List Account → List (Account × QuotaIdentity × IdentityData)
  | [] => []
  | a :: rest =>
    (match a.antigravity with
     | some d =>
       if !(d.refreshToken = "") &&
           (identityFilter = none || identityFilter = some .antigravity) then
         [(a, .antigravity, d)]
       else []
     | none => []) ++
    (match a.geminiCli with
     | some d =>
       if !(d.refreshToken = "") &&
           (identityFilter = none || identityFilter = some .geminiCli) then
         [(a, .geminiCli, d)]
       else []
     | none => []) ++
    taskList identityFilter rest

/-- Options of the status command relevant to the core. -/
structure StatusOptions where
  accountFilter : Option String
  identityFilter : Option QuotaIdentity

/-- The accounts after the optional exact-match email filter. -/
def filteredAccounts (store : Store) (opts : StatusOptions) : List Account :=
  match opts.accountFilter with
  | some f => store.accounts.filter (fun a => a.email = f)
  | none => store.accounts

/-- All task results of one `runStatus` invocation, in task order;
`env email identity` is the environment answering that task's calls. -/
def statusResults (store : Store) (opts : StatusOptions)
    (env : String → QuotaIdentity → TaskEnv) : List IdentityQuotaResult :=
  (taskList opts.identityFilter (filteredAccounts store opts)).map
    (fun t => (fetchIdentityQuota t.1 t.2.1 t.2.2 (env t.1.email t.2.1)).result)

/-- Outcome of `runStatus`: the returned reports and errors, and the
sequence of stores passed to `saveStore` (instrumentation; the write is
fire-and-forget in the source). -/
structure StatusOut where
  reports : List AccountQuotaReport
  errors : List IdentityError
  writes : List Store
deriving Repr

/-- `runStatus` (status.ts lines 215-296, sans rendering): load/filter,
fan out, collect reports and errors, merge refreshed token caches into
a store snapshot, and write that snapshot back exactly once iff any
task refreshed.  `saveOk` is the eventual outcome of the best-effort
`saveStore` promise; the code discards it (`.catch(() => {})`), which
is why it appears nowhere on the right-hand side. -/
def runStatus (store : Store) (opts : StatusOptions)
    (env : String → QuotaIdentity → TaskEnv) (_saveOk : Bool) : StatusOut :=
  let results := statusResults store opts env
  let reports := results.filterMap (·.report)
  let errors := results.filterMap (·.error)
  let storeNeedsUpdate := results.any (·.tokenCache.isSome)
  let updatedStore := results.foldl applyResult store
  { reports := reports
    errors := errors
    writes := if storeNeedsUpdate then [updatedStore] else [] }

/-! ## Derived predicates used by the theorems -/

/-- The effective fraction used for a map-shaped model entry:
`quotaInfo?.remainingFraction ?? 0`. -/
def effModelFrac (md : ModelData) : ℚ :=
  (md.quotaInfo.bind (·.remainingFraction)).getD 0

/-- The effective fraction used for a list-shaped bucket:
`remainingFraction ?? 0`. -/
def effBucketFrac (b : Bucket) : ℚ :=
  b.remainingFraction.getD 0

/-- A discovery event from which no project id is extractable: every
non-timed-out 2xx answer it could produce has no extractable id. -/
def discoveryFails (ev : HttpEvent LCAJson) : Prop :=
  ∀ s b, fetchWithTimeout ev PROJECT_FETCH_TIMEOUT_MS = .ok (s, b) →
    resOk s = true → extractProjectId b = none

/-- Result `r` carries a fresh token cache for `(email, k)`. -/
def stepRefreshes (r : IdentityQuotaResult) (email : String) (k : QuotaIdentity) : Prop :=
  r.email = email ∧ r.identity = k ∧ r.tokenCache.isSome = true

/-- Some result in the list carries a fresh token cache for `(email, k)`. -/
def refreshedIn (results : List IdentityQuotaResult) (email : String)
    (k : QuotaIdentity) : Prop :=
  ∃ r ∈ results, stepRefreshes r email k

/-- Frame condition for one identity slot of an account: untouched
unless refreshed, presence preserved, and in all cases the durable
fields (`refreshToken`, `projectId`) preserved — i.e. at most the
cached-token fields change. -/
def slotFrame (refreshed : Prop) (slot slotNew : Option IdentityData) : Prop :=
  (¬ refreshed → slotNew = slot) ∧
  (slot = none → slotNew = none) ∧
  (∀ d, slot = some d → ∃ dNew, slotNew = some dNew ∧
    dNew.refreshToken = d.refreshToken ∧ dNew.projectId = d.projectId)

/-- Frame condition for a whole account: every field preserved except,
possibly, the cached-token fields of a refreshed identity slot. -/
def accountFrame (refA refG : Prop) (a aNew : Account) : Prop :=
  aNew.email = a.email ∧ aNew.projectId = a.projectId ∧
  aNew.addedAt = a.addedAt ∧ aNew.updatedAt = a.updatedAt ∧
  slotFrame refA a.antigravity aNew.antigravity ∧
  slotFrame refG a.geminiCli aNew.geminiCli

/-- Account frame with respect to the refreshes reported in `results`. -/
def resultsFrame (results : List IdentityQuotaResult) (a aNew : Account) : Prop :=
  accountFrame (refreshedIn results a.email .antigravity)
    (refreshedIn results a.email .geminiCli) a aNew

/-! ## Concrete instances used by witnesses and counterexamples -/

/-- Transport answering every quota call with HTTP 403. -/
def w403 : Nat → HttpEvent QJson := fun _ => ⟨0, .resp 403 none⟩

/-- Transport answering 500, 500, 500, then 200 with a parseable body
(the claim C2 scenario verbatim). -/
def wC2 : Nat → HttpEvent QJson := fun n =>
  if n ≤ 2 then ⟨0, .resp 500 none⟩
  else ⟨0, .resp 200 (some ⟨some [("gemini-pro", ⟨some ⟨some 1, some "t"⟩⟩)], none⟩)⟩

/-- Transport answering 500, 500, then 200 with an (empty) models map. -/
def w552 : Nat → HttpEvent QJson := fun n =>
  if n ≤ 1 then ⟨0, .resp 500 none⟩ else ⟨0, .resp 200 (some ⟨some [], none⟩)⟩

/-- Discovery transport that always fails at the network level. -/
def noNetC6 : Nat → HttpEvent LCAJson := fun _ => ⟨0, .netErr "down"⟩

/-- Discovery transport that always fails at the network level. -/
def noNetC7 : Nat → HttpEvent LCAJson := fun _ => ⟨0, .netErr "down"⟩

/-- A model entry with fraction 1/2 and a reset time. -/
def mdW : ModelData := ⟨some ⟨some (1/2), some "r"⟩⟩

/-- A bucket carrying a fraction and reset time but an empty modelId. -/
def bEmptyId : Bucket := ⟨some "500", some (1/2), some "RT", none, some ""⟩

/-- Credential with a cached token valid far beyond the margin. -/
def dC3 : IdentityData := ⟨"rt", none, some "cached-token", some 10000⟩

def aC3 : Account := ⟨"c@x", none, some dC3, none, 0, 0⟩

/-- Environment whose token transport would fail if it were called. -/
def envC3 : TaskEnv :=
  { tokenEvent := ⟨0, .netErr "never-called"⟩
    projectEvents := fun _ => ⟨0, .netErr "down"⟩
    quotaTransport := fun _ => ⟨0, .netErr "down"⟩
    nowSec := 0
    fetchedAt := 0 }

/-- Credential with no cached token (forces a refresh). -/
def dC4 : IdentityData := ⟨"rt", none, none, none⟩

def aC4 : Account := ⟨"u@example.com", none, some dC4, none, 0, 0⟩

/-- Environment whose token endpoint answers HTTP 200 with a body
carrying `error=invalid_grant` and no access token. -/
def tEnvC4 : TaskEnv :=
  { tokenEvent := ⟨0, .resp 200 (some ⟨none, none, some "invalid_grant", none⟩)⟩
    projectEvents := fun _ => ⟨0, .netErr "down"⟩
    quotaTransport := fun _ => ⟨0, .netErr "down"⟩
    nowSec := 0
    fetchedAt := 0 }

/-- Environment whose token endpoint answers HTTP 400 with
`error=invalid_grant` and a description carrying the phrase. -/
def tEnvC4w : TaskEnv :=
  { tokenEvent := ⟨0, .resp 400 (some ⟨none, none, some "invalid_grant",
      some "Token has been expired or revoked. invalid_grant"⟩)⟩
    projectEvents := fun _ => ⟨0, .netErr "down"⟩
    quotaTransport := fun _ => ⟨0, .netErr "down"⟩
    nowSec := 0
    fetchedAt := 0 }

/-- A token-endpoint response that arrives only after ~11.6 days yet
carries a perfectly valid body. -/
def lateTokenEvent : HttpEvent TokenJson :=
  ⟨1000000000, .resp 200 (some ⟨some "tok", some 100, none, none⟩)⟩

/-- Credential with a stale cache and a stored project id. -/
def dC9 : IdentityData := ⟨"rt", some "proj", none, none⟩

def aC9 : Account := ⟨"e@x", none, some dC9, none, 0, 0⟩

def storeC9 : Store := ⟨1, [aC9]⟩

def optsC9 : StatusOptions := ⟨none, none⟩

/-- Environment: refresh succeeds, quota answers 403 (task fails after
its refresh). -/
def envC9 : TaskEnv :=
  { tokenEvent := ⟨0, .resp 200 (some ⟨some "newtok", some 3600, none, none⟩)⟩
    projectEvents := fun _ => ⟨0, .netErr "down"⟩
    quotaTransport := fun _ => ⟨0, .resp 403 none⟩
    nowSec := 0
    fetchedAt := 0 }

def envFunC9 : String → QuotaIdentity → TaskEnv := fun _ _ => envC9

/-- Environment: refresh succeeds and the quota fetch succeeds. -/
def envC9w : TaskEnv :=
  { tokenEvent := ⟨0, .resp 200 (some ⟨some "newtok", some 3600, none, none⟩)⟩
    projectEvents := fun _ => ⟨0, .netErr "down"⟩
    quotaTransport := fun _ => ⟨0, .resp 200 (some ⟨some [], none⟩)⟩
    nowSec := 0
    fetchedAt := 7 }

def envFunC9w : String → QuotaIdentity → TaskEnv := fun _ _ => envC9w

/-! ## General lemmas -/

theorem floorPercentRange (f : ℚ) (h0 : 0 ≤ f) (h1 : f ≤ 1) :
    0 ≤ ⌊f * 100⌋ ∧ ⌊f * 100⌋ ≤ 100 := by
  constructor
  · exact Int.le_floor.2 (by push_cast; positivity)
  · calc ⌊f * 100⌋ ≤ ⌊(100 : ℚ)⌋ := Int.floor_le_floor (by nlinarith)
      _ = 100 := by norm_num

theorem parseQuotaResponse_mem (models : List (String × ModelData))
    (mq : ModelQuota) (h : mq ∈ parseQuotaResponse models) :
    ∃ n md, (n, md) ∈ models ∧ mq.remainingPercent = ⌊effModelFrac md * 100⌋ := by
  induction models with
  | nil => simp [parseQuotaResponse] at h
  | cons hd tl ih =>
    obtain ⟨n, md⟩ := hd
    by_cases hf : modelFilterTest n
    · rw [parseQuotaResponse, if_pos hf] at h
      rcases List.mem_cons.1 h with h1 | h2
      · exact ⟨n, md, List.mem_cons_self _ _, by rw [h1]; rfl⟩
      · obtain ⟨n', md', hmem, hp⟩ := ih h2
        exact ⟨n', md', List.mem_cons_of_mem _ hmem, hp⟩
    · rw [parseQuotaResponse, if_neg hf] at h
      obtain ⟨n', md', hmem, hp⟩ := ih h
      exact ⟨n', md', List.mem_cons_of_mem _ hmem, hp⟩

theorem parseUserQuotaResponse_mem (buckets : List Bucket)
    (mq : ModelQuota) (h : mq ∈ parseUserQuotaResponse buckets) :
    ∃ b ∈ buckets, b.modelId = some mq.model ∧ mq.model ≠ "" ∧
      mq.remainingPercent = ⌊effBucketFrac b * 100⌋ := by
  induction buckets with
  | nil => simp [parseUserQuotaResponse] at h
  | cons b tl ih =>
    rw [parseUserQuotaResponse] at h
    split at h
    · obtain ⟨b', hmem, hp⟩ := ih h
      exact ⟨b', List.mem_cons_of_mem _ hmem, hp⟩
    · next m hm =>
      split at h
      · obtain ⟨b', hmem, hp⟩ := ih h
        exact ⟨b', List.mem_cons_of_mem _ hmem, hp⟩
      · next hskip =>
        rcases List.mem_cons.1 h with h1 | h2
        · have hemp : m ≠ "" := by
            intro he
            apply hskip
            subst he
            simp
          refine ⟨b, List.mem_cons_self _ _, ?_, ?_, ?_⟩
          · rw [h1]
            exact hm
          · rw [h1]
            exact hemp
          · rw [h1]
            rfl
        · obtain ⟨b', hmem, hp⟩ := ih h2
          exact ⟨b', List.mem_cons_of_mem _ hmem, hp⟩

theorem loopSkipsFailedEndpoint (events : Nat → HttpEvent LCAJson)
    (ep : String) (rest : List String) (calls : Nat)
    (h : discoveryFails (events calls)) :
    ensureProjectIdLoop events (ep :: rest) calls =
      ensureProjectIdLoop events rest (calls + 1) := by
  cases hf : fetchWithTimeout (events calls) PROJECT_FETCH_TIMEOUT_MS with
  | error m => simp [ensureProjectIdLoop, hf]
  | ok sb =>
    obtain ⟨s, b⟩ := sb
    cases hok : resOk s with
    | false => simp [ensureProjectIdLoop, hf, hok]
    | true => simp [ensureProjectIdLoop, hf, hok, h s b hf hok]

theorem restInstrumentation (a : Account) (i : QuotaIdentity) (d : IdentityData)
    (env : TaskEnv) (tok : String) (tc : Option TokenCache) (n : Nat) :
    (fetchIdentityQuotaRest a i d env tok tc n).tokenCalls = n ∧
    (fetchIdentityQuotaRest a i d env tok tc n).accessTokenUsed = some tok := by
  unfold fetchIdentityQuotaRest
  dsimp only
  repeat' split
  all_goals exact ⟨rfl, rfl⟩

theorem refreshInstrumentation (a : Account) (i : QuotaIdentity) (d : IdentityData)
    (env : TaskEnv) :
    (fetchIdentityQuotaRefresh a i d env).tokenCalls = 1 := by
  unfold fetchIdentityQuotaRefresh
  split
  · rfl
  · exact (restInstrumentation a i d env _ _ 1).1

theorem fiqValid (a : Account) (i : QuotaIdentity) (d : IdentityData) (env : TaskEnv)
    (h : isCachedTokenValid d env.nowSec = true) :
    ∃ t, d.cachedAccessToken = some t ∧
      fetchIdentityQuota a i d env = fetchIdentityQuotaRest a i d env t none 0 := by
  unfold isCachedTokenValid at h
  unfold fetchIdentityQuota
  cases hca : d.cachedAccessToken with
  | none => cases hce : d.cachedExpiresAt <;> simp [hca, hce] at h
  | some t =>
    cases hce : d.cachedExpiresAt with
    | none => simp [hca, hce] at h
    | some e =>
      simp only [hca, hce] at h ⊢
      exact ⟨t, rfl, by rw [if_pos h]⟩

theorem fiqStale (a : Account) (i : QuotaIdentity) (d : IdentityData) (env : TaskEnv)
    (h : isCachedTokenValid d env.nowSec = false) :
    fetchIdentityQuota a i d env = fetchIdentityQuotaRefresh a i d env := by
  unfold isCachedTokenValid at h
  unfold fetchIdentityQuota
  cases hca : d.cachedAccessToken with
  | none => cases hce : d.cachedExpiresAt <;> simp [hca, hce]
  | some t =>
    cases hce : d.cachedExpiresAt with
    | none => simp [hca, hce]
    | some e =>
      simp only [hca, hce] at h ⊢
      rw [if_neg]
      rw [h]
      exact Bool.false_ne_true

theorem slotFrameRefl (P : Prop) (s : Option IdentityData) : slotFrame P s s :=
  ⟨fun _ => rfl, fun h => h, fun d h => ⟨d, h, rfl, rfl⟩⟩

theorem accountFrameRefl (P Q : Prop) (a : Account) : accountFrame P Q a a :=
  ⟨rfl, rfl, rfl, rfl, slotFrameRefl P _, slotFrameRefl Q _⟩

theorem slotFrameIff {P Q : Prop} {s t : Option IdentityData} (h : P ↔ Q)
    (hf : slotFrame P s t) : slotFrame Q s t :=
  ⟨fun hq => hf.1 (fun hp => hq (h.mp hp)), hf.2.1, hf.2.2⟩

theorem slotFrameComp {P Q : Prop} {s1 s2 s3 : Option IdentityData}
    (h1 : slotFrame P s1 s2) (h2 : slotFrame Q s2 s3) : slotFrame (P ∨ Q) s1 s3 := by
  obtain ⟨e1, n1, p1⟩ := h1
  obtain ⟨e2, n2, p2⟩ := h2
  refine ⟨fun h => ?_, fun h => n2 (n1 h), fun d h => ?_⟩
  · rw [e2 (fun q => h (Or.inr q)), e1 (fun p => h (Or.inl p))]
  · obtain ⟨d2, hs2, hr2, hp2⟩ := p1 d h
    obtain ⟨d3, hs3, hr3, hp3⟩ := p2 d2 hs2
    exact ⟨d3, hs3, hr3.trans hr2, hp3.trans hp2⟩

theorem forall2Refl {α : Type} {R : α → α → Prop} (h : ∀ a, R a a) :
    ∀ l : List α, List.Forall₂ R l l
  | [] => .nil
  | a :: rest => .cons (h a) (forall2Refl h rest)

theorem forall2Comp {α β γ : Type} {R : α → β → Prop} {S : β → γ → Prop}
    {T : α → γ → Prop} (h : ∀ a b c, R a b → S b c → T a c) :
    ∀ {l1 : List α} {l2 : List β} {l3 : List γ},
      List.Forall₂ R l1 l2 → List.Forall₂ S l2 l3 → List.Forall₂ T l1 l3 := by
  intro l1 l2 l3 h12
  induction h12 generalizing l3 with
  | nil =>
    intro h23
    cases h23
    exact .nil
  | cons hr hrest ih =>
    intro h23
    cases h23 with
    | cons hs hsrest => exact .cons (h _ _ _ hr hs) (ih hsrest)

theorem updateFirstAccountFrame (email : String) (k : QuotaIdentity) (tc : TokenCache) :
    ∀ accounts : List Account,
      List.Forall₂
        (fun a aNew => accountFrame (email = a.email ∧ k = .antigravity)
          (email = a.email ∧ k = .geminiCli) a aNew)
        accounts (updateFirstAccount email k tc accounts)
  | [] => .nil
  | a :: rest => by
    unfold updateFirstAccount
    by_cases he : a.email = email
    · rw [if_pos he]
      cases hg : getIdentityData a k with
      | none => exact forall2Refl (fun x => accountFrameRefl _ _ x) (a :: rest)
      | some existing =>
        refine .cons ?_ (forall2Refl (fun x => accountFrameRefl _ _ x) rest)
        cases k with
        | antigravity =>
          refine ⟨rfl, rfl, rfl, rfl, ?_, slotFrameRefl _ _⟩
          refine ⟨fun hn => absurd ⟨he.symm, rfl⟩ hn, ?_, ?_⟩
          · intro h0
            rw [show getIdentityData a .antigravity = a.antigravity from rfl] at hg
            rw [h0] at hg
            cases hg
          · intro d hd
            have hde : existing = d :=
              Option.some.inj ((hg.symm).trans hd)
            exact ⟨applyCache existing tc, rfl, by rw [hde]; rfl, by rw [hde]; rfl⟩
        | geminiCli =>
          refine ⟨rfl, rfl, rfl, rfl, slotFrameRefl _ _, ?_⟩
          refine ⟨fun hn => absurd ⟨he.symm, rfl⟩ hn, ?_, ?_⟩
          · intro h0
            rw [show getIdentityData a .geminiCli = a.geminiCli from rfl] at hg
            rw [h0] at hg
            cases hg
          · intro d hd
            have hde : existing = d :=
              Option.some.inj ((hg.symm).trans hd)
            exact ⟨applyCache existing tc, rfl, by rw [hde]; rfl, by rw [hde]; rfl⟩
    · rw [if_neg he]
      refine .cons ?_ (updateFirstAccountFrame email k tc rest)
      refine ⟨rfl, rfl, rfl, rfl, ?_, ?_⟩
      · exact slotFrameRefl _ _
      · exact slotFrameRefl _ _

theorem applyResultFrame (s : Store) (r : IdentityQuotaResult) :
    (applyResult s r).version = s.version ∧
    List.Forall₂
      (fun a aNew => accountFrame (stepRefreshes r a.email .antigravity)
        (stepRefreshes r a.email .geminiCli) a aNew)
      s.accounts (applyResult s r).accounts := by
  unfold applyResult
  cases htc : r.tokenCache with
  | none =>
    exact ⟨rfl, forall2Refl (fun a => accountFrameRefl _ _ a) s.accounts⟩
  | some tc =>
    refine ⟨rfl, ?_⟩
    have base := updateFirstAccountFrame r.email r.identity tc s.accounts
    refine List.Forall₂.imp ?_ base
    intro a aNew hf
    obtain ⟨he, hp, ha, hu, sA, sG⟩ := hf
    refine ⟨he, hp, ha, hu, ?_, ?_⟩
    · refine slotFrameIff ?_ sA
      unfold stepRefreshes
      rw [htc]
      simp only [Option.isSome_some, and_true]
    · refine slotFrameIff ?_ sG
      unfold stepRefreshes
      rw [htc]
      simp only [Option.isSome_some, and_true]

theorem refreshedInCons {r : IdentityQuotaResult} {rs : List IdentityQuotaResult}
    {e : String} {k : QuotaIdentity} :
    refreshedIn (r :: rs) e k ↔ stepRefreshes r e k ∨ refreshedIn rs e k := by
  unfold refreshedIn
  constructor
  · rintro ⟨x, hx, hs⟩
    rcases List.mem_cons.1 hx with heq | hmem
    · exact Or.inl (heq ▸ hs)
    · exact Or.inr ⟨x, hmem, hs⟩
  · rintro (hs | ⟨x, hmem, hs⟩)
    · exact ⟨r, List.mem_cons_self _ _, hs⟩
    · exact ⟨x, List.mem_cons_of_mem _ hmem, hs⟩

theorem accountFrameComp {r : IdentityQuotaResult} {rs : List IdentityQuotaResult}
    {a b c : Account}
    (h1 : accountFrame (stepRefreshes r a.email .antigravity)
      (stepRefreshes r a.email .geminiCli) a b)
    (h2 : resultsFrame rs b c) :
    resultsFrame (r :: rs) a c := by
  obtain ⟨he1, hp1, ha1, hu1, sA1, sG1⟩ := h1
  obtain ⟨he2, hp2, ha2, hu2, sA2, sG2⟩ := h2
  rw [he1] at he2 sA2 sG2
  refine ⟨he2, hp2.trans hp1, ha2.trans ha1, hu2.trans hu1, ?_, ?_⟩
  · exact slotFrameIff refreshedInCons.symm (slotFrameComp sA1 sA2)
  · exact slotFrameIff refreshedInCons.symm (slotFrameComp sG1 sG2)

theorem foldlApplyResultFrame :
    ∀ (results : List IdentityQuotaResult) (s : Store),
      (results.foldl applyResult s).version = s.version ∧
      List.Forall₂ (resultsFrame results) s.accounts
        (results.foldl applyResult s).accounts
  | [], s => ⟨rfl, forall2Refl (fun a => accountFrameRefl _ _ a) s.accounts⟩
  | r :: rs, s => by
    rw [List.foldl_cons]
    obtain ⟨hv1, hf1⟩ := applyResultFrame s r
    obtain ⟨hv2, hf2⟩ := foldlApplyResultFrame rs (applyResult s r)
    refine ⟨hv2.trans hv1, ?_⟩
    have comp : ∀ a b c,
        (accountFrame (stepRefreshes r a.email .antigravity)
          (stepRefreshes r a.email .geminiCli) a b) →
        resultsFrame rs b c → resultsFrame (r :: rs) a c :=
      fun _ _ _ h1 h2 => accountFrameComp h1 h2
    exact forall2Comp comp hf1 hf2

theorem runStatusWrites (store : Store) (opts : StatusOptions)
    (env : String → QuotaIdentity → TaskEnv) (saveOk : Bool) :
    (runStatus store opts env saveOk).writes =
      if (statusResults store opts env).any (·.tokenCache.isSome) then
        [(statusResults store opts env).foldl applyResult store]
      else [] := rfl

/-! ## Claim theorems -/

/-- C1: for every quota fetch (either identity, any endpoint), an HTTP
403 answer to the first call aborts immediately — exactly one outbound
call, no delay — with the `Forbidden: HTTP 403` quota error, and that
error is classified `isForbidden = true` by the status layer. -/
theorem quota403AbortsImmediately
    (transport : Nat → HttpEvent QJson) (endpoint : String) (isGeminiCli : Bool)
    (body : Option QJson)
    (hdur : (transport 0).duration < QUOTA_FETCH_TIMEOUT_MS)
    (hresp : (transport 0).outcome = .resp 403 body) :
    fetchQuotaWithRetry transport endpoint isGeminiCli =
      ⟨.error ⟨"Forbidden: HTTP 403", 403, endpoint⟩, 1, 0⟩ ∧
    isForbiddenError (.quotaErr ⟨"Forbidden: HTTP 403", 403, endpoint⟩) = true := by
  constructor
  · have h15 : ¬ (transport 0).duration ≥ QUOTA_FETCH_TIMEOUT_MS := Nat.not_le.2 hdur
    simp [fetchQuotaWithRetry, MAX_RETRIES, fetchQuotaGo, fetchWithTimeout, h15,
      hresp, resOk]
  · simp [isForbiddenError]

/-- C1 witness: the all-403 transport, antigravity shape. -/
theorem quota403AbortsImmediatelyWitness :
    fetchQuotaWithRetry w403 "ep" false =
      ⟨.error ⟨"Forbidden: HTTP 403", 403, "ep"⟩, 1, 0⟩ ∧
    isForbiddenError (.quotaErr ⟨"Forbidden: HTTP 403", 403, "ep"⟩) = true :=
  quota403AbortsImmediately w403 "ep" false none (by decide) rfl

/-- C2 counterexample: a transport answering 500, 500, 500, then 200
(the claim's exact scenario) yields 3 calls but a transient `HTTP 500`
error, not a successful parsed result — the third 500 exhausts the
3-attempt budget before the 200 is ever requested. -/
theorem quotaRetryFourth200Counterexample :
    (wC2 3).outcome =
      .resp 200 (some ⟨some [("gemini-pro", ⟨some ⟨some 1, some "t"⟩⟩)], none⟩) ∧
    fetchQuotaWithRetry wC2 "ep" false =
      ⟨.error ⟨"HTTP 500", 500, "ep"⟩, 3, 2⟩ := by
  exact ⟨rfl, rfl⟩

/-- C2 amended: a transport answering 500, then 500, then 200 yields
exactly 3 outbound calls (with two retry delays) and the successfully
parsed result of the 200 body — the retry budget is 3 attempts and the
last attempt succeeds. -/
theorem quotaRetrySucceedsThird
    (transport : Nat → HttpEvent QJson) (endpoint : String) (isGeminiCli : Bool)
    (b0 b1 b2 : Option QJson)
    (hd0 : (transport 0).duration < QUOTA_FETCH_TIMEOUT_MS)
    (hd1 : (transport 1).duration < QUOTA_FETCH_TIMEOUT_MS)
    (hd2 : (transport 2).duration < QUOTA_FETCH_TIMEOUT_MS)
    (h0 : (transport 0).outcome = .resp 500 b0)
    (h1 : (transport 1).outcome = .resp 500 b1)
    (h2 : (transport 2).outcome = .resp 200 b2) :
    fetchQuotaWithRetry transport endpoint isGeminiCli =
      ⟨.ok (parseOkBody isGeminiCli b2), 3, 2⟩ := by
  have hn0 : ¬ (transport 0).duration ≥ QUOTA_FETCH_TIMEOUT_MS := Nat.not_le.2 hd0
  have hn1 : ¬ (transport 1).duration ≥ QUOTA_FETCH_TIMEOUT_MS := Nat.not_le.2 hd1
  have hn2 : ¬ (transport 2).duration ≥ QUOTA_FETCH_TIMEOUT_MS := Nat.not_le.2 hd2
  simp [fetchQuotaWithRetry, MAX_RETRIES, fetchQuotaGo, fetchWithTimeout,
    hn0, hn1, hn2, h0, h1, h2, resOk]

/-- C2 amended witness: 500, 500, then 200 with an empty models map. -/
theorem quotaRetrySucceedsThirdWitness :
    fetchQuotaWithRetry w552 "ep" false = ⟨.ok [], 3, 2⟩ :=
  (quotaRetrySucceedsThird w552 "ep" false none none (some ⟨some [], none⟩)
    (by decide) (by decide) (by decide) rfl rfl rfl).trans rfl

/-- C3: a stored credential's task makes no token-endpoint call iff the
cached access token is present (non-empty) and its expiry exceeds
`now + 300`; otherwise it performs exactly one refresh exchange; and on
a cache hit the cached token itself is the one passed downstream. -/
theorem cachedTokenSkipsRefresh (account : Account) (identity : QuotaIdentity)
    (d : IdentityData) (env : TaskEnv) (hnow : 0 ≤ env.nowSec) :
    ((fetchIdentityQuota account identity d env).tokenCalls = 0 ↔
      (∃ t, d.cachedAccessToken = some t ∧ t ≠ "") ∧
      (∃ e, d.cachedExpiresAt = some e ∧ e > env.nowSec + TOKEN_CACHE_MARGIN_S)) ∧
    ((fetchIdentityQuota account identity d env).tokenCalls = 0 ∨
      (fetchIdentityQuota account identity d env).tokenCalls = 1) ∧
    ((fetchIdentityQuota account identity d env).tokenCalls = 0 →
      (fetchIdentityQuota account identity d env).accessTokenUsed =
        d.cachedAccessToken) := by
  cases hval : isCachedTokenValid d env.nowSec with
  | true =>
    obtain ⟨t, hca, heq⟩ := fiqValid account identity d env hval
    have hcalls : (fetchIdentityQuota account identity d env).tokenCalls = 0 := by
      rw [heq]
      exact (restInstrumentation account identity d env t none 0).1
    unfold isCachedTokenValid at hval
    rw [hca] at hval
    cases hce : d.cachedExpiresAt with
    | none =>
      rw [hce] at hval
      simp at hval
    | some e =>
      rw [hce] at hval
      simp only [Bool.and_eq_true, Bool.not_eq_true', decide_eq_false_iff_not,
        decide_eq_true_eq] at hval
      obtain ⟨⟨ht, hne⟩, he⟩ := hval
      refine ⟨⟨fun _ => ⟨⟨t, hca, ht⟩, ⟨e, rfl, he⟩⟩, fun _ => hcalls⟩,
        Or.inl hcalls, fun _ => ?_⟩
      rw [heq, hca]
      exact (restInstrumentation account identity d env t none 0).2
  | false =>
    have heq := fiqStale account identity d env hval
    have hcalls : (fetchIdentityQuota account identity d env).tokenCalls = 1 := by
      rw [heq]
      exact refreshInstrumentation account identity d env
    refine ⟨⟨fun h0 => absurd (hcalls ▸ h0) one_ne_zero, fun hcond => ?_⟩,
      Or.inr hcalls, fun h0 => absurd (hcalls ▸ h0) one_ne_zero⟩
    exfalso
    obtain ⟨⟨t, hca, ht⟩, ⟨e, hce, he⟩⟩ := hcond
    have hm : TOKEN_CACHE_MARGIN_S = (300 : Int) := rfl
    have hne : e ≠ 0 := by omega
    have htrue : (!decide (t = "") && !decide (e = 0) &&
        decide (e > env.nowSec + TOKEN_CACHE_MARGIN_S)) = true := by
      simp only [Bool.and_eq_true, Bool.not_eq_true', decide_eq_false_iff_not,
        decide_eq_true_eq]
      exact ⟨⟨ht, hne⟩, he⟩
    unfold isCachedTokenValid at hval
    rw [hca, hce] at hval
    simp only at hval
    rw [htrue] at hval
    exact Bool.noConfusion hval

/-- C3 witness: a cached token valid until epoch 10000 with now = 0. -/
theorem cachedTokenSkipsRefreshWitness :
    ((fetchIdentityQuota aC3 .antigravity dC3 envC3).tokenCalls = 0 ↔
      (∃ t, dC3.cachedAccessToken = some t ∧ t ≠ "") ∧
      (∃ e, dC3.cachedExpiresAt = some e ∧ e > envC3.nowSec + TOKEN_CACHE_MARGIN_S)) ∧
    ((fetchIdentityQuota aC3 .antigravity dC3 envC3).tokenCalls = 0 ∨
      (fetchIdentityQuota aC3 .antigravity dC3 envC3).tokenCalls = 1) ∧
    ((fetchIdentityQuota aC3 .antigravity dC3 envC3).tokenCalls = 0 →
      (fetchIdentityQuota aC3 .antigravity dC3 envC3).accessTokenUsed =
        dC3.cachedAccessToken) :=
  cachedTokenSkipsRefresh aC3 .antigravity dC3 envC3 (by decide)

/-- C4 counterexample: a token-endpoint response whose body carries
`error=invalid_grant` but arrives with HTTP 200 (and no access token)
produces an IdentityError with `needsRelogin = false` — the code's
"missing access_token" error carries no invalid_grant marker, so the
claim fails for OK-status responses. -/
theorem invalidGrantOkBodyCounterexample :
    tEnvC4.tokenEvent.outcome =
      .resp 200 (some ⟨none, none, some "invalid_grant", none⟩) ∧
    (fetchIdentityQuota aC4 .antigravity dC4 tEnvC4).result.error =
      some ⟨"u@example.com", .antigravity,
        "OAuth token response missing access_token", false, false⟩ := by
  exact ⟨rfl, rfl⟩

/-- C4 amended: for every non-2xx token-endpoint response whose body
carries `error=invalid_grant` (or the phrase in the description field),
a task with no usable cached token performs exactly one token exchange
— never a retry — and its IdentityError has `needsRelogin = true`. -/
theorem invalidGrantNeedsRelogin (account : Account) (identity : QuotaIdentity)
    (d : IdentityData) (env : TaskEnv) (status : Nat) (body : Option TokenJson)
    (hcache : isCachedTokenValid d env.nowSec = false)
    (hresp : env.tokenEvent.outcome = .resp status body)
    (hnotok : resOk status = false)
    (hig : body.bind (·.error) = some "invalid_grant" ∨
      (∃ desc, body.bind (·.error_description) = some desc ∧
        containsSub desc "invalid_grant" = true)) :
    (fetchIdentityQuota account identity d env).tokenCalls = 1 ∧
    ∃ ie, (fetchIdentityQuota account identity d env).result.error = some ie ∧
      ie.needsRelogin = true := by
  rw [fiqStale account identity d env hcache]
  have hpost : postToken env.tokenEvent = .error (.oauth
      { message := "OAuth token request failed"
        status := status
        endpoint := GOOGLE_OAUTH_TOKEN_ENDPOINT
        error := body.bind (·.error)
        errorDescription := body.bind (·.error_description) }) := by
    unfold postToken
    rw [hresp]
    simp only [hnotok]
    rfl
  have hrefresh : refreshAccessToken env.tokenEvent env.nowSec = .error (.oauth
      { message := "OAuth token request failed"
        status := status
        endpoint := GOOGLE_OAUTH_TOKEN_ENDPOINT
        error := body.bind (·.error)
        errorDescription := body.bind (·.error_description) }) := by
    unfold refreshAccessToken
    rw [hpost]
  unfold fetchIdentityQuotaRefresh
  rw [hrefresh]
  refine ⟨rfl, ⟨_, rfl, ?_⟩⟩
  show isInvalidGrantError (liftTokenFailure (.oauth _)) = true
  unfold liftTokenFailure isInvalidGrantError
  rcases hig with hig | ⟨desc, hdesc, hsub⟩
  · simp only [hig]
    simp
  · rw [hdesc]
    simp only [hsub]
    simp

/-- C4 amended witness: HTTP 400 with `error=invalid_grant`. -/
theorem invalidGrantNeedsReloginWitness :
    (fetchIdentityQuota aC4 .antigravity dC4 tEnvC4w).tokenCalls = 1 ∧
    ∃ ie, (fetchIdentityQuota aC4 .antigravity dC4 tEnvC4w).result.error = some ie ∧
      ie.needsRelogin = true :=
  invalidGrantNeedsRelogin aC4 .antigravity dC4 tEnvC4w 400
    (some ⟨none, none, some "invalid_grant",
      some "Token has been expired or revoked. invalid_grant"⟩)
    rfl rfl (by decide) (Or.inl rfl)

/-- C5 counterexample: the token exchange is not independently
time-bounded — a token-endpoint response arriving after 10^9 ms (far
beyond the claimed 10-second budget) is used normally instead of
raising a timeout failure. -/
theorem tokenExchangeUnboundedCounterexample :
    lateTokenEvent.duration > 10000 ∧
    refreshAccessToken lateTokenEvent 0 = .ok ⟨"tok", 100⟩ := by
  exact ⟨by decide, rfl⟩

/-- C5 amended: the quota fetch is bounded at 15 s per call and project
discovery at 10 s per call, each surfacing the distinguishable timeout
error message once the budget is reached, while the token exchange has
no bound of its own (its result is duration-independent). -/
theorem timeoutBudgets :
    QUOTA_FETCH_TIMEOUT_MS = 15000 ∧ PROJECT_FETCH_TIMEOUT_MS = 10000 ∧
    (∀ (β : Type) (ev : HttpEvent β) (t : Nat), ev.duration ≥ t →
      fetchWithTimeout ev t = .error s!"Network request timed out after {t}ms") ∧
    (∀ (dur dur2 : Nat) (out : HttpOutcome TokenJson) (nowSec : Int),
      refreshAccessToken ⟨dur, out⟩ nowSec = refreshAccessToken ⟨dur2, out⟩ nowSec) := by
  refine ⟨rfl, rfl, ?_, ?_⟩
  · intro β ev t h
    unfold fetchWithTimeout
    rw [if_pos h]
  · intro dur dur2 out nowSec
    rfl

/-- C5 amended witness: a 20 s event against the 15 s budget times out;
a token response's handling is the same at duration 999999 and 0. -/
theorem timeoutBudgetsWitness :
    fetchWithTimeout (⟨20000, .netErr "slow"⟩ : HttpEvent TokenJson) 15000 =
      .error s!"Network request timed out after {(15000 : Nat)}ms" ∧
    refreshAccessToken ⟨999999, .resp 200 (some ⟨some "tok", none, none, none⟩)⟩ 5 =
      refreshAccessToken ⟨0, .resp 200 (some ⟨some "tok", none, none, none⟩)⟩ 5 :=
  ⟨timeoutBudgets.2.2.1 TokenJson ⟨20000, .netErr "slow"⟩ 15000 (by decide),
   timeoutBudgets.2.2.2 999999 0 (.resp 200 (some ⟨some "tok", none, none, none⟩)) 5⟩

/-- C6 counterexample: a known project id with surrounding whitespace is
returned trimmed, not verbatim (character-for-character): `" myproj "`
comes back as `"myproj"` (and no network call is made). -/
theorem knownProjectIdTrimmedCounterexample :
    ensureProjectId "tok" (some " myproj ") noNetC6 = ⟨.ok "myproj", 0⟩ ∧
    ("myproj" : String) ≠ " myproj " := by
  exact ⟨rfl, by decide⟩

/-- C6 amended: for every knownProjectId that is non-empty after
trimming (and a non-blank access token), ensureProjectId returns its
trimmed value — hence verbatim exactly when the input carries no
surrounding whitespace — and performs no network call. -/
theorem knownProjectIdReturnedTrimmed (accessToken p : String)
    (events : Nat → HttpEvent LCAJson)
    (htok : jsTrim accessToken ≠ "") (hp : jsTrim p ≠ "") :
    ensureProjectId accessToken (some p) events = ⟨.ok (jsTrim p), 0⟩ := by
  have hpne : p ≠ "" := by
    intro h
    apply hp
    rw [h]
    rfl
  simp [ensureProjectId, htok, hpne, hp]

/-- C6 amended witness: `" myproj "` is returned as its trim. -/
theorem knownProjectIdReturnedTrimmedWitness :
    ensureProjectId "tok" (some " myproj ") noNetC6 =
      ⟨.ok (jsTrim " myproj "), 0⟩ :=
  knownProjectIdReturnedTrimmed "tok" " myproj " noNetC6 (by decide) (by decide)

/-- C7: with a non-blank access token and no known project id, if no
project id is extractable from any of the three discovery endpoints
(timeout, network error, non-2xx, or body without an id), then
ensureProjectId does not throw and returns the fixed fallback id after
trying all three; and a blank access token is a hard validation error. -/
theorem discoveryFailureFallsBack (tok : String) (events : Nat → HttpEvent LCAJson)
    (htok : jsTrim tok ≠ "")
    (h0 : discoveryFails (events 0)) (h1 : discoveryFails (events 1))
    (h2 : discoveryFails (events 2)) :
    ensureProjectId tok none events = ⟨.ok DEFAULT_PROJECT_ID, 3⟩ ∧
    (∀ tok2 pid events2, jsTrim tok2 = "" →
      ensureProjectId tok2 pid events2 =
        ⟨.error ⟨"Access token is required and cannot be empty", 0, ""⟩, 0⟩) := by
  constructor
  · show ensureProjectId tok none events = _
    unfold ensureProjectId
    rw [if_neg htok]
    show ensureProjectIdLoop events LOAD_CODE_ASSIST_ENDPOINTS 0 = _
    unfold LOAD_CODE_ASSIST_ENDPOINTS
    rw [loopSkipsFailedEndpoint events _ _ 0 h0,
        loopSkipsFailedEndpoint events _ _ 1 h1,
        loopSkipsFailedEndpoint events _ _ 2 h2]
    rfl
  · intro tok2 pid events2 h
    unfold ensureProjectId
    rw [if_pos h]

/-- C7 witness: three network failures fall back to the default id. -/
theorem discoveryFailureFallsBackWitness :
    ensureProjectId "tok" none noNetC7 = ⟨.ok DEFAULT_PROJECT_ID, 3⟩ :=
  (discoveryFailureFallsBack "tok" noNetC7 (by decide)
    (by intro s b h; simp [noNetC7, fetchWithTimeout, PROJECT_FETCH_TIMEOUT_MS] at h)
    (by intro s b h; simp [noNetC7, fetchWithTimeout, PROJECT_FETCH_TIMEOUT_MS] at h)
    (by intro s b h; simp [noNetC7, fetchWithTimeout, PROJECT_FETCH_TIMEOUT_MS] at h)).1

/-- C8: both normalizers compute `remainingPercent` as the floor of the
entry's effective fraction times 100, and whenever all fractions lie in
[0,1] every produced `remainingPercent` lies in 0..100. -/
theorem remainingPercentIsFlooredFraction
    (models : List (String × ModelData)) (buckets : List Bucket)
    (hm : ∀ n md, (n, md) ∈ models → 0 ≤ effModelFrac md ∧ effModelFrac md ≤ 1)
    (hb : ∀ b ∈ buckets, 0 ≤ effBucketFrac b ∧ effBucketFrac b ≤ 1) :
    (∀ mq ∈ parseQuotaResponse models,
      (∃ n md, (n, md) ∈ models ∧ mq.remainingPercent = ⌊effModelFrac md * 100⌋) ∧
      0 ≤ mq.remainingPercent ∧ mq.remainingPercent ≤ 100) ∧
    (∀ mq ∈ parseUserQuotaResponse buckets,
      (∃ b ∈ buckets, mq.remainingPercent = ⌊effBucketFrac b * 100⌋) ∧
      0 ≤ mq.remainingPercent ∧ mq.remainingPercent ≤ 100) := by
  constructor
  · intro mq hmem
    obtain ⟨n, md, hin, hp⟩ := parseQuotaResponse_mem models mq hmem
    obtain ⟨h0, h1⟩ := hm n md hin
    obtain ⟨hl, hu⟩ := floorPercentRange _ h0 h1
    exact ⟨⟨n, md, hin, hp⟩, by rw [hp]; exact hl, by rw [hp]; exact hu⟩
  · intro mq hmem
    obtain ⟨b, hin, _, _, hp⟩ := parseUserQuotaResponse_mem buckets mq hmem
    obtain ⟨h0, h1⟩ := hb b hin
    obtain ⟨hl, hu⟩ := floorPercentRange _ h0 h1
    exact ⟨⟨b, hin, hp⟩, by rw [hp]; exact hl, by rw [hp]; exact hu⟩

/-- C8 witness: fraction 1/2 floors to 50, inside 0..100. -/
theorem remainingPercentIsFlooredFractionWitness :
    (∃ n md, (n, md) ∈ [("gemini", mdW)] ∧ (50 : ℤ) = ⌊effModelFrac md * 100⌋) ∧
    (0 : ℤ) ≤ 50 ∧ (50 : ℤ) ≤ 100 := by
  have main := remainingPercentIsFlooredFraction [("gemini", mdW)] []
    (by
      intro n md h
      simp only [List.mem_singleton, Prod.mk.injEq] at h
      rw [h.2]
      norm_num [effModelFrac, mdW])
    (by intro b h; simp at h)
  have hparse : parseQuotaResponse [("gemini", mdW)] = [⟨"gemini", 50, "r"⟩] := by
    have hf : modelFilterTest "gemini" = true := by decide
    simp [parseQuotaResponse, hf, mdW]
    norm_num
  have hmem : (⟨"gemini", 50, "r"⟩ : ModelQuota) ∈ parseQuotaResponse [("gemini", mdW)] := by
    rw [hparse]
    exact List.mem_singleton.2 rfl
  exact main.1 ⟨"gemini", 50, "r"⟩ hmem

/-- C9 counterexample: a task that performed an actual refresh (one
successful token exchange) but then failed its quota fetch with 403
reports no token cache, so runStatus performs no write at all — the
claim's "at least one task performed an actual refresh implies exactly
one write" fails for refresh-then-fail tasks. -/
theorem refreshedButFailedTaskNotPersisted :
    refreshAccessToken envC9.tokenEvent envC9.nowSec = .ok ⟨"newtok", 3600⟩ ∧
    (fetchIdentityQuota aC9 .antigravity dC9 envC9).tokenCalls = 1 ∧
    (runStatus storeC9 optsC9 envFunC9 true).writes = [] ∧
    (runStatus storeC9 optsC9 envFunC9 true).errors =
      [⟨"e@x", .antigravity, "Forbidden: HTTP 403", false, true⟩] := by
  exact ⟨rfl, rfl, rfl, rfl⟩

/-- C9 amended: when at least one settled task reports a fresh token
(an actual refresh in a task that completed successfully), runStatus
writes the merged snapshot exactly once; when no task reports one, no
write occurs; every written store preserves version, account count,
emails, legacy project ids, timestamps, identity presence and the
durable refreshToken/projectId of every slot, leaving non-refreshed
slots entirely unchanged (so only cached-token fields of refreshed
entries differ); and the outcome of the best-effort write never alters
the returned reports and errors. -/
theorem statusWriteOnceCacheOnlyDiff (store : Store) (opts : StatusOptions)
    (env : String → QuotaIdentity → TaskEnv) (saveOk : Bool) :
    ((∃ r ∈ statusResults store opts env, r.tokenCache.isSome = true) →
      (runStatus store opts env saveOk).writes =
        [(statusResults store opts env).foldl applyResult store]) ∧
    ((∀ r ∈ statusResults store opts env, r.tokenCache = none) →
      (runStatus store opts env saveOk).writes = []) ∧
    (∀ w ∈ (runStatus store opts env saveOk).writes,
      w.version = store.version ∧
      List.Forall₂ (resultsFrame (statusResults store opts env))
        store.accounts w.accounts) ∧
    (∀ b1 b2 : Bool, runStatus store opts env b1 = runStatus store opts env b2) ∧
    (runStatus store opts env saveOk).reports =
      (statusResults store opts env).filterMap (·.report) ∧
    (runStatus store opts env saveOk).errors =
      (statusResults store opts env).filterMap (·.error) := by
  refine ⟨?_, ?_, ?_, fun b1 b2 => rfl, rfl, rfl⟩
  · rintro ⟨r, hr, hsome⟩
    rw [runStatusWrites, if_pos (List.any_eq_true.2 ⟨r, hr, hsome⟩)]
  · intro hall
    rw [runStatusWrites, if_neg ?_]
    intro hc
    obtain ⟨r, hr, hsome⟩ := List.any_eq_true.1 hc
    rw [hall r hr] at hsome
    cases hsome
  · intro w hw
    rw [runStatusWrites] at hw
    by_cases hany : (statusResults store opts env).any (·.tokenCache.isSome) = true
    · rw [if_pos hany] at hw
      rcases List.mem_singleton.1 hw with rfl
      exact foldlApplyResultFrame (statusResults store opts env) store
    · rw [if_neg hany] at hw
      cases hw

/-- C9 amended witness: one refreshing, succeeding task produces a
single write whose store differs from the loaded one only in the
refreshed slot's cached-token fields. -/
theorem statusWriteOnceCacheOnlyDiffWitness :
    (runStatus storeC9 optsC9 envFunC9w true).writes =
      [⟨1, [⟨"e@x", none, some ⟨"rt", some "proj", some "newtok", some 3600⟩,
        none, 0, 0⟩]⟩] := by
  have h := (statusWriteOnceCacheOnlyDiff storeC9 optsC9 envFunC9w true).1
  have hex : ∃ r ∈ statusResults storeC9 optsC9 envFunC9w,
      r.tokenCache.isSome = true := by
    refine ⟨(fetchIdentityQuota aC9 .antigravity dC9 envC9w).result, ?_, rfl⟩
    show _ ∈ statusResults storeC9 optsC9 envFunC9w
    exact List.mem_singleton.2 rfl
  rw [h hex]
  rfl

/-- C10: a list-shaped bucket whose modelId is absent or empty is
dropped entirely — it contributes nothing even when carrying a fraction
or reset time, and every produced entry stems from a bucket with a
non-empty modelId — while the map-shaped parser keeps a filter-matching
model with missing quota info as `remainingPercent = 0`,
`resetTime = ""`. -/
theorem bucketWithoutModelIdDropped :
    (∀ (b : Bucket) (rest : List Bucket), (b.modelId = none ∨ b.modelId = some "") →
      parseUserQuotaResponse (b :: rest) = parseUserQuotaResponse rest) ∧
    (∀ buckets mq, mq ∈ parseUserQuotaResponse buckets →
      ∃ b ∈ buckets, b.modelId = some mq.model ∧ mq.model ≠ "") ∧
    (∀ (name : String) (rest : List (String × ModelData)),
      modelFilterTest name = true →
      parseQuotaResponse ((name, ⟨none⟩) :: rest) =
        ⟨name, 0, ""⟩ :: parseQuotaResponse rest) := by
  refine ⟨?_, ?_, ?_⟩
  · intro b rest h
    rcases h with h | h
    · rw [parseUserQuotaResponse, h]
    · rw [parseUserQuotaResponse, h]
      simp
  · intro buckets mq h
    obtain ⟨b, hin, hid, hne, _⟩ := parseUserQuotaResponse_mem buckets mq h
    exact ⟨b, hin, hid, hne⟩
  · intro name rest hf
    rw [parseQuotaResponse, if_pos hf]
    have h0 : ⌊(0 : ℚ) * 100⌋ = (0 : ℤ) := by norm_num
    show ({ model := name, remainingPercent := ⌊(0 : ℚ) * 100⌋, resetTime := "" } :
        ModelQuota) :: parseQuotaResponse rest = _
    rw [h0]

/-- C10 witness: a bucket with fraction, reset time and empty modelId
yields nothing; a filter-matching model without quotaInfo yields the
0 / "" entry. -/
theorem bucketWithoutModelIdDroppedWitness :
    parseUserQuotaResponse [bEmptyId] = [] ∧
    parseQuotaResponse [("claude-3", ⟨none⟩)] = [⟨"claude-3", 0, ""⟩] := by
  constructor
  · exact bucketWithoutModelIdDropped.1 bEmptyId [] (Or.inr rfl)
  · have h := bucketWithoutModelIdDropped.2.2 "claude-3" [] (by decide)
    simpa using h

end UsageGoogle
